import Mathlib

/-!
Shallow embedding of the rmcp-postgres PostgreSQL MCP server
(source files: src/lib.rs and src/main.rs).

Pure string- and JSON-level behaviour of the server's tool implementations is
translated into executable Lean definitions: every SQL-statement builder, the
row-marshalling function `row_to_json`, the connection-string sanitizer from
main.rs, and the connection-status field extraction.  Database execution is
external to the repository; where a claim speaks about the database's
treatment of a built statement, the relevant execution step is modelled
explicitly and marked as such in its doc comment.

Machine integers (i32, i64) are modelled as `Int`; no operation in the
embedded code can overflow them on the inputs the theorems use.  An `f64` is
modelled by its bit pattern (`Nat`), since the embedded code only passes
floats through without arithmetic.
-/

/-- The double-quote character (U+0022), used by `trim_matches('"')`. -/
def quoteChar : Char := Char.ofNat 34

/-- The backslash character (U+005C), used by JSON string escaping. -/
def backslashChar : Char := Char.ofNat 92

/-- Models Rust `Vec<String>::join(sep)`. -/
def strJoin (sep : String) : List String → String
  | [] => ""
  | [x] => x
  | x :: y :: rest => x ++ sep ++ strJoin sep (y :: rest)

/-- Substring test on character lists (models Rust `str::contains`). -/
def containsSub : List Char → List Char → Bool
  | [], needle => needle.isEmpty
  | c :: t, needle => needle.isPrefixOf (c :: t) || containsSub t needle

/-- Substring test at the `String` level. -/
def strContains (hay sub : String) : Bool := containsSub hay.data sub.data

/-- Models Rust `str::trim` (drop whitespace from both ends). -/
def trimChars (l : List Char) : List Char :=
  ((l.dropWhile Char.isWhitespace).reverse.dropWhile Char.isWhitespace).reverse

/-- Models Rust `str::to_uppercase` on ASCII input (per-character upper-casing). -/
def toUpperChars (l : List Char) : List Char := l.map Char.toUpper

/-- Models Rust `str::find(pattern)`: index of the first occurrence of
`pat` in the haystack, `none` if absent. -/
def findSubIdx : List Char → List Char → Option Nat
  | [], pat => if pat.isEmpty then some 0 else none
  | c :: rest, pat =>
    if pat.isPrefixOf (c :: rest) then some 0
    else (findSubIdx rest pat).map (fun i => i + 1)

/-- Models Rust `str::find(char)`: index of the first occurrence of a character. -/
def findCharIdx : List Char → Char → Option Nat
  | [], _ => none
  | c :: rest, t => if c = t then some 0 else (findCharIdx rest t).map (fun i => i + 1)

/-- Helper for `wordsOf`: accumulates the current (reversed) word. -/
def wordsAux : List Char → List Char → List (List Char)
  | [], cur => if cur.isEmpty then [] else [cur.reverse]
  | c :: rest, cur =>
    if c.isWhitespace then
      if cur.isEmpty then wordsAux rest [] else cur.reverse :: wordsAux rest []
    else wordsAux rest (c :: cur)

/-- Models Rust `str::split_whitespace`: maximal runs of non-whitespace characters. -/
def wordsOf (s : String) : List (List Char) := wordsAux s.data []

/-- The numeric payload of a JSON value (`serde_json::Number`): either an
integer (covering the i64/u64 cases) or an f64 identified by its bit pattern. -/
inductive JNum where
  | int (i : Int)
  | float (bits : Nat)
deriving DecidableEq

/-- Model of `serde_json::Value`.  Objects are association lists in the map's
iteration order. -/
inductive Json where
  | null
  | bool (b : Bool)
  | num (n : JNum)
  | str (s : String)
  | arr (elems : List Json)
  | obj (fields : List (String × Json))

/-- Models `Value::as_str`: `some` exactly on JSON strings. -/
def Json.asStr : Json → Option String
  | .str s => some s
  | _ => none

/-- Models `Value::as_object`: `some` exactly on JSON objects. -/
def Json.asObj : Json → Option (List (String × Json))
  | .obj fs => some fs
  | _ => none

/-- JSON string-character escaping as performed by `serde_json` compact output. -/
def escapeChar (c : Char) : List Char :=
  if c = quoteChar then [backslashChar, quoteChar]
  else if c = backslashChar then [backslashChar, backslashChar]
  else if c = Char.ofNat 8 then [backslashChar, 'b']
  else if c = Char.ofNat 9 then [backslashChar, 't']
  else if c = Char.ofNat 10 then [backslashChar, 'n']
  else if c = Char.ofNat 12 then [backslashChar, 'f']
  else if c = Char.ofNat 13 then [backslashChar, 'r']
  else if c.toNat < 32 then
    [backslashChar, 'u', '0', '0', Nat.digitChar (c.toNat / 16), Nat.digitChar (c.toNat % 16)]
  else [c]

/-- A JSON string literal as rendered by `serde_json` (quoted and escaped). -/
def renderStrLit (s : String) : String :=
  String.mk (quoteChar :: (s.data.map escapeChar).flatten ++ [quoteChar])

/-- Decimal rendering of an f64.  The repository delegates this to the external
`serde_json`/`ryu` printer, which is outside the embedded code; it is abstracted
here as a tag on the bit pattern.  No claim in this development depends on the
decimal text of a float. -/
def f64Repr (bits : Nat) : String := "f64#" ++ Nat.repr bits

mutual

/-- Models `serde_json::Value::to_string` (compact JSON rendering), as invoked
by `insert_data` (src/lib.rs line 315). -/
def renderJson : Json → String
  | .null => "null"
  | .bool true => "true"
  | .bool false => "false"
  | .num (.int i) => Int.repr i
  | .num (.float bits) => f64Repr bits
  | .str s => renderStrLit s
  | .arr es => "[" ++ strJoin "," (renderList es) ++ "]"
  | .obj fs => "\x7b" ++ strJoin "," (renderFields fs) ++ "\x7d"

/-- Renders the elements of a JSON array. -/
def renderList : List Json → List String
  | [] => []
  | j :: rest => renderJson j :: renderList rest

/-- Renders the key-value pairs of a JSON object. -/
def renderFields : List (String × Json) → List String
  | [] => []
  | kv :: rest => (renderStrLit kv.1 ++ ":" ++ renderJson kv.2) :: renderFields rest

end

/-- Models Rust `str::trim_matches('"')`: strip all leading and trailing
double quotes (src/lib.rs line 315). -/
def stripQuotes (s : String) : String :=
  String.mk (((s.data.dropWhile (fun c => c = quoteChar)).reverse.dropWhile
    (fun c => c = quoteChar)).reverse)

/-- The MCP error kinds produced by the embedded code paths
(`McpError::invalid_params` and `McpError::internal_error`). -/
inductive McpErr where
  | invalidParams (msg : String)
  | internalError (msg : String)
deriving DecidableEq

/-- A built statement: SQL text plus the ordered list of bound values
(`client.query`/`client.execute` second argument). -/
structure Stmt where
  text : String
  binds : List String
deriving DecidableEq

/-- The `column = 'value'` clause builder used identically by `count_rows`
(line 437), `update_data` (lines 583 and 588) and `delete_data` (line 633):
Rust `format!("{} = '{}'", k, v.as_str().unwrap_or(""))`. -/
def eqClause (kv : String × Json) : String :=
  kv.1 ++ " = \x27" ++ (kv.2.asStr.getD "") ++ "\x27"

/-- Placeholder list for `insert_data`: Rust
`(1..=columns.len()).map(|i| format!("${}", i))`. -/
def insertPlaceholders (n : Nat) : List String :=
  (List.range n).map (fun i => "$" ++ Nat.repr (i + 1))

/-- SQL text built by `insert_data` (src/lib.rs lines 305-310). -/
def insertText (table : String) (columns : List String) : String :=
  "INSERT INTO " ++ table ++ " (" ++ strJoin ", " columns ++ ") VALUES (" ++
    strJoin ", " (insertPlaceholders columns.length) ++ ")"

/-- Value coercion used by `insert_data` (line 315):
`v.to_string().trim_matches('"').to_string()`. -/
def insertValue (v : Json) : String := stripQuotes (renderJson v)

/-- The statement-construction part of `insert_data` (src/lib.rs lines 288-324):
validates that `data` is an object, builds the INSERT text from the keys, and
binds the stringified values. -/
def insert_data (table : String) (data : Json) : Except McpErr Stmt :=
  match data.asObj with
  | none => .error (.invalidParams "Data must be a JSON object")
  | some fields =>
    .ok ⟨insertText table (fields.map (fun kv => kv.1)),
         fields.map (fun kv => insertValue kv.2)⟩

/-- SQL text built by `count_rows` when WHERE conditions are present
(src/lib.rs line 440). -/
def countWhereText (table : String) (fields : List (String × Json)) : String :=
  "SELECT COUNT(*) FROM " ++ table ++ " WHERE " ++ strJoin " AND " (fields.map eqClause)

/-- The statement-construction part of `count_rows` (src/lib.rs lines 423-448). -/
def count_rows_stmt (table : String) (whereConditions : Option Json) : Except McpErr Stmt :=
  match whereConditions with
  | some w =>
    match w.asObj with
    | none => .error (.invalidParams "WHERE conditions must be a JSON object")
    | some fields => .ok ⟨countWhereText table fields, []⟩
  | none => .ok ⟨"SELECT COUNT(*) FROM " ++ table, []⟩

/-- The `count_rows` pipeline: a query is issued only when statement
construction succeeds; `runQuery` stands for the database round trip. -/
def count_rows_run (table : String) (whereConditions : Option Json)
    (runQuery : String → Int) : Except McpErr Int :=
  (count_rows_stmt table whereConditions).map (fun st => runQuery st.text)

/-- The limit computation of `get_table_sample` (src/lib.rs line 533):
`params.limit.unwrap_or(10).min(100)`. -/
def sampleLimit (limit : Option Int) : Int := min (limit.getD 10) 100

/-- SQL text built by `get_table_sample` (src/lib.rs line 540). -/
def get_table_sample_query (table : String) (limit : Option Int) : String :=
  "SELECT * FROM " ++ table ++ " LIMIT " ++ Int.repr (sampleLimit limit)

/-- The statement issued by `get_table_sample` (src/lib.rs line 543): the
built text with an empty bind list (`client.query(&query, &[])`). -/
def get_table_sample_stmt (table : String) (limit : Option Int) : Stmt :=
  ⟨get_table_sample_query table limit, []⟩

/-- SQL text built by `update_data` (src/lib.rs lines 591-597). -/
def updateText (table : String) (setFields whereFields : List (String × Json))
    (limit : Int) : String :=
  "UPDATE " ++ table ++ " SET " ++ strJoin ", " (setFields.map eqClause) ++
    " WHERE " ++ strJoin " AND " (whereFields.map eqClause) ++ " LIMIT " ++ Int.repr limit

/-- The statement-construction part of `update_data` (src/lib.rs lines 561-611). -/
def update_data (table : String) (values whereConditions : Json)
    (limit : Option Int) : Except McpErr Stmt :=
  let lim := limit.getD 1000
  match values.asObj with
  | none => .error (.invalidParams "Values must be a JSON object")
  | some setFields =>
    match whereConditions.asObj with
    | none => .error (.invalidParams "WHERE conditions must be a JSON object")
    | some whereFields => .ok ⟨updateText table setFields whereFields lim, []⟩

/-- SQL text built by `delete_data` (src/lib.rs lines 636-641). -/
def deleteText (table : String) (whereFields : List (String × Json)) (limit : Int) : String :=
  "DELETE FROM " ++ table ++ " WHERE " ++ strJoin " AND " (whereFields.map eqClause) ++
    " LIMIT " ++ Int.repr limit

/-- The statement-construction part of `delete_data` (src/lib.rs lines 615-655). -/
def delete_data (table : String) (whereConditions : Json)
    (limit : Option Int) : Except McpErr Stmt :=
  let lim := limit.getD 1000
  match whereConditions.asObj with
  | none => .error (.invalidParams "WHERE conditions must be a JSON object")
  | some whereFields => .ok ⟨deleteText table whereFields lim, []⟩

/-- The statement issued by `query_data` (src/lib.rs line 221): the caller's
query text with an empty bind list. -/
def query_data_stmt (q : String) : Stmt := ⟨q, []⟩

/-- The classification test of `execute_raw_query` (src/lib.rs line 669):
`params.query.trim().to_uppercase().starts_with("SELECT")`. -/
def isSelectQuery (q : String) : Bool :=
  List.isPrefixOf "SELECT".data (toUpperChars (trimChars q.data))

/-- The statement issued by `execute_raw_query` on either branch
(src/lib.rs lines 671 and 687): the caller's text with an empty bind list;
the optional `params` array is never consulted. -/
def execute_raw_stmt (q : String) (_ps : Option (List Json)) : Stmt := ⟨q, []⟩

/-- A column descriptor as seen through `row.columns()`: name and the
declared type's name (`column.type_().name()`). -/
structure PgColumn where
  name : String
  typeName : String
deriving DecidableEq

/-- The decoded value of one column at the `row.try_get` boundary: the Rust
value produced when the driver-side conversion succeeds, or `rNull` when the
stored value cannot be decoded at the requested Rust type (including SQL NULL). -/
inductive PgRaw where
  | rInt (v : Int)
  | rFloat (bits : Nat)
  | rBool (b : Bool)
  | rText (s : String)
  | rNull
deriving DecidableEq

/-- One result row: columns in result-set order, each with its decoded value. -/
abbrev PgRow := List (PgColumn × PgRaw)

/-- Models `row.try_get::<_, i64>(idx)`. -/
def tryGetI64 : PgRaw → Option Int
  | .rInt v => some v
  | _ => none

/-- Models `row.try_get::<_, f64>(idx)`. -/
def tryGetF64 : PgRaw → Option Nat
  | .rFloat bits => some bits
  | _ => none

/-- Models `row.try_get::<_, bool>(idx)`. -/
def tryGetBool : PgRaw → Option Bool
  | .rBool b => some b
  | _ => none

/-- Models `row.try_get::<_, String>(idx)`. -/
def tryGetString : PgRaw → Option String
  | .rText s => some s
  | _ => none

/-- The per-column dispatch of `row_to_json` (src/lib.rs lines 168-194):
match on the column's type name; on conversion failure the arm's
`unwrap_or(serde_json::Value::Null)` yields Null. -/
def colToJson (typeName : String) (raw : PgRaw) : Json :=
  if typeName = "int4" ∨ typeName = "int8" then
    match tryGetI64 raw with
    | some v => .num (.int v)
    | none => .null
  else if typeName = "float4" ∨ typeName = "float8" then
    match tryGetF64 raw with
    | some bits => .num (.float bits)
    | none => .null
  else if typeName = "bool" then
    match tryGetBool raw with
    | some b => .bool b
    | none => .null
  else if typeName = "text" ∨ typeName = "varchar" then
    match tryGetString raw with
    | some s => .str s
    | none => .null
  else
    match tryGetString raw with
    | some s => .str s
    | none => .null

/-- Models `row_to_json` (src/lib.rs lines 164-200): one entry per column, in
column order, keyed by column name.  The sequence of `map.insert` calls is
modelled as the resulting association list. -/
def row_to_json (row : PgRow) : Json :=
  .obj (row.map (fun cr => (cr.1.name, colToJson cr.1.typeName cr.2)))

/-- The response of `execute_raw_query` (src/lib.rs lines 659-698), given the
outcome the database would produce on each branch: `queryRows` is what the
row-returning primitive would yield, `execCount` what the row-affecting
primitive would report. -/
inductive RawOutcome where
  | rowSet (rows : List Json) (count : Nat)
  | rowsAffected (n : Nat)

/-- Branch structure of `execute_raw_query`: the SELECT-classified path calls
the query primitive and reports the marshalled rows with their count; the
other path calls the execute primitive and reports the affected-row count. -/
def execute_raw_query (q : String) (queryRows : List PgRow) (execCount : Nat) : RawOutcome :=
  if isSelectQuery q then
    .rowSet (queryRows.map row_to_json) (queryRows.map row_to_json).length
  else
    .rowsAffected execCount

/-- SQL text of `get_schema` with a table filter (src/lib.rs lines 249-255):
the table name is interpolated between these two fixed pieces. -/
def schemaFilteredPre : String :=
  "SELECT table_name, column_name, data_type, is_nullable\n                 FROM information_schema.columns\n                 WHERE table_name = \x27"

/-- Closing piece of the filtered `get_schema` text. -/
def schemaFilteredPost : String :=
  "\x27\n                 ORDER BY ordinal_position"

/-- SQL text of `get_schema` without a table filter (src/lib.rs lines 257-261). -/
def schemaAllText : String :=
  "SELECT table_name, column_name, data_type, is_nullable\n             FROM information_schema.columns\n             WHERE table_schema = \x27public\x27\n             ORDER BY table_name, ordinal_position"

/-- The statement built by `get_schema` (src/lib.rs lines 239-267): the table
name, when supplied, is interpolated into the text; nothing is bound. -/
def get_schema_stmt (tableName : Option String) : Stmt :=
  match tableName with
  | some t => ⟨schemaFilteredPre ++ t ++ schemaFilteredPost, []⟩
  | none => ⟨schemaAllText, []⟩

/-- Columns query of `describe_table` (src/lib.rs lines 369-372): fixed text,
table name bound as `$1`. -/
def describeColumnsText : String :=
  "SELECT column_name, data_type, is_nullable, column_default\n                 FROM information_schema.columns\n                 WHERE table_schema = \x27public\x27 AND table_name = $1\n                 ORDER BY ordinal_position"

/-- The columns statement of `describe_table`. -/
def describe_table_columns_stmt (tableName : String) : Stmt :=
  ⟨describeColumnsText, [tableName]⟩

/-- Indexes query of `describe_table` (src/lib.rs lines 393-395). -/
def describeIndexesText : String :=
  "SELECT indexname, indexdef\n                 FROM pg_indexes\n                 WHERE schemaname = \x27public\x27 AND tablename = $1"

/-- The indexes statement of `describe_table`. -/
def describe_table_indexes_stmt (tableName : String) : Stmt :=
  ⟨describeIndexesText, [tableName]⟩

/-- Query of `table_exists` (src/lib.rs line 474). -/
def tableExistsText : String :=
  "SELECT EXISTS (SELECT 1 FROM pg_tables WHERE schemaname = \x27public\x27 AND tablename = $1)"

/-- The statement built by `table_exists` (src/lib.rs lines 463-489). -/
def table_exists_stmt (tableName : String) : Stmt :=
  ⟨tableExistsText, [tableName]⟩

/-- Query of `column_exists` (src/lib.rs lines 504-509). -/
def columnExistsText : String :=
  "SELECT EXISTS (\n                    SELECT 1 FROM information_schema.columns\n                    WHERE table_schema = \x27public\x27\n                      AND table_name = $1\n                      AND column_name = $2\n                )"

/-- The statement built by `column_exists` (src/lib.rs lines 493-525). -/
def column_exists_stmt (tableName columnName : String) : Stmt :=
  ⟨columnExistsText, [tableName, columnName]⟩

/-- SQL text of `get_relationships` with a table filter (src/lib.rs lines
712-729): the table name is interpolated at the end of this fixed piece. -/
def relationshipsFilteredPre : String :=
  "SELECT\n                    tc.table_name,\n                    kcu.column_name,\n                    ccu.table_name AS foreign_table_name,\n                    ccu.column_name AS foreign_column_name\n                FROM information_schema.table_constraints AS tc\n                JOIN information_schema.key_column_usage AS kcu\n                  ON tc.constraint_name = kcu.constraint_name\n                  AND tc.table_schema = kcu.table_schema\n                JOIN information_schema.constraint_column_usage AS ccu\n                  ON ccu.constraint_name = tc.constraint_name\n                  AND ccu.table_schema = tc.table_schema\n                WHERE tc.constraint_type = \x27FOREIGN KEY\x27\n                  AND tc.table_schema = \x27public\x27\n                  AND tc.table_name = \x27"

/-- Closing piece of the filtered `get_relationships` text. -/
def relationshipsFilteredPost : String := "\x27"

/-- SQL text of `get_relationships` without a table filter (src/lib.rs lines
731-745). -/
def relationshipsAllText : String :=
  "SELECT\n                tc.table_name,\n                kcu.column_name,\n                ccu.table_name AS foreign_table_name,\n                ccu.column_name AS foreign_column_name\n            FROM information_schema.table_constraints AS tc\n            JOIN information_schema.key_column_usage AS kcu\n              ON tc.constraint_name = kcu.constraint_name\n              AND tc.table_schema = kcu.table_schema\n            JOIN information_schema.constraint_column_usage AS ccu\n              ON ccu.constraint_name = tc.constraint_name\n              AND ccu.table_schema = tc.table_schema\n            WHERE tc.constraint_type = \x27FOREIGN KEY\x27\n              AND tc.table_schema = \x27public\x27"

/-- The statement built by `get_relationships` (src/lib.rs lines 702-751). -/
def get_relationships_stmt (tableName : Option String) : Stmt :=
  match tableName with
  | some t => ⟨relationshipsFilteredPre ++ t ++ relationshipsFilteredPost, []⟩
  | none => ⟨relationshipsAllText, []⟩

/-- Models `sanitize_connection_string` from src/main.rs lines 77-92, at the
character-list level.  `"password="` has length 9, matching the byte offset
`pwd_start + 9` in the source. -/
def sanitizeChars (conn : List Char) : List Char :=
  match findSubIdx conn "password=".data with
  | some pwdStart =>
    let sanitized := conn.take pwdStart ++ "password=***".data
    let afterPwd := conn.drop (pwdStart + 9)
    match findCharIdx afterPwd ' ' with
    | some spacePos => sanitized ++ afterPwd.drop spacePos
    | none => sanitized
  | none => conn

/-- `sanitize_connection_string` (src/main.rs lines 77-92). -/
def sanitize_connection_string (s : String) : String := String.mk (sanitizeChars s.data)

/-- The token-extraction pattern of `get_connection_status` (src/lib.rs lines
786-805): first whitespace-separated token starting with `key`, with the key
stripped, or the default. -/
def confToken (conf : String) (key : String) (dflt : String) : String :=
  match (wordsOf conf).find? (fun w => List.isPrefixOf key.data w) with
  | some w => String.mk (w.drop key.length)
  | none => dflt

/-- The `database`, `user` and `host` fields of `get_connection_status`'s
response (src/lib.rs lines 786-816). -/
def get_connection_status_fields (conf : String) : String × String × String :=
  (confToken conf "dbname=" "unknown", confToken conf "user=" "unknown",
   confToken conf "host=" "localhost")

/-- Modelled from the spec: the external database applies a query-level LIMIT
as a ceiling on the number of affected rows ("an affected-row-count ceiling
(default 1000) is always applied as a query-level limit"), and rejects a
negative limit, in which case no affected-row count is produced. -/
def dbApplyLimit (matched : Nat) (limit : Int) : Option Nat :=
  if limit < 0 then none else some (min matched limit.toNat)

/-- Formalization of the claim notion "leading keyword": the maximal run of
alphabetic characters after trimming leading whitespace. -/
def leadingKeyword (q : String) : String :=
  String.mk ((q.data.dropWhile Char.isWhitespace).takeWhile Char.isAlpha)

/-- Number of placeholder markers in a piece of SQL text, counted as
occurrences of the dollar character (no built text puts a dollar anywhere
else when the identifiers are dollar-free). -/
def countDollar (s : String) : Nat := s.data.count '$'

/-! ## Helper lemmas -/

theorem containsSub_iff (hay needle : List Char) :
    containsSub hay needle = true ↔ ∃ a b, hay = a ++ (needle ++ b) := by
  induction hay with
  | nil =>
    simp only [containsSub, List.isEmpty_iff]
    constructor
    · rintro rfl
      exact ⟨[], [], rfl⟩
    · rintro ⟨a, b, h⟩
      have h2 := h.symm
      simp only [List.append_eq_nil] at h2
      exact h2.2.1
  | cons c t ih =>
    simp only [containsSub, Bool.or_eq_true]
    constructor
    · rintro (hpre | hsub)
      · rw [List.isPrefixOf_iff_prefix] at hpre
        obtain ⟨b, hb⟩ := hpre
        exact ⟨[], b, by simp [hb]⟩
      · obtain ⟨a, b, h⟩ := ih.mp hsub
        exact ⟨c :: a, b, by simp [h]⟩
    · rintro ⟨a, b, h⟩
      cases a with
      | nil =>
        left
        rw [List.isPrefixOf_iff_prefix]
        exact ⟨b, by simpa using h.symm⟩
      | cons x a2 =>
        right
        apply ih.mpr
        simp only [List.cons_append] at h
        injection h with h1 h2
        exact ⟨a2, b, h2⟩

theorem strContains_of_split (s x : String) (a b : List Char)
    (h : s.data = a ++ (x.data ++ b)) : strContains s x = true := by
  unfold strContains
  exact (containsSub_iff s.data x.data).mpr ⟨a, b, h⟩

theorem strJoin_data_split (sep : String) (xs : List String) (x : String) (hx : x ∈ xs) :
    ∃ a b : List Char, (strJoin sep xs).data = a ++ (x.data ++ b) := by
  induction xs with
  | nil => cases hx
  | cons y rest ih =>
    cases rest with
    | nil =>
      have hxy : x = y := by simpa using hx
      subst hxy
      exact ⟨[], [], by simp [strJoin]⟩
    | cons z t =>
      rcases List.mem_cons.mp hx with hxy | hmem
      · subst hxy
        refine ⟨[], (sep ++ strJoin sep (z :: t)).data, ?_⟩
        simp [strJoin]
      · obtain ⟨a, b, hab⟩ := ih hmem
        refine ⟨(y ++ sep).data ++ a, b, ?_⟩
        simp [strJoin, hab]

theorem findCharIdx_append_space (v r : List Char) (hv : ∀ c ∈ v, c ≠ ' ') :
    findCharIdx (v ++ ' ' :: r) ' ' = some v.length := by
  induction v with
  | nil => simp [findCharIdx]
  | cons c t ih =>
    have hc : ¬(c = ' ') := hv c (by simp)
    have ht := ih (fun d hd => hv d (by simp [hd]))
    simp [findCharIdx, hc, ht]

theorem digitChar_ne_dollar : ∀ m : Nat, Nat.digitChar m ≠ '$'
  | 0 => by decide
  | 1 => by decide
  | 2 => by decide
  | 3 => by decide
  | 4 => by decide
  | 5 => by decide
  | 6 => by decide
  | 7 => by decide
  | 8 => by decide
  | 9 => by decide
  | 10 => by decide
  | 11 => by decide
  | 12 => by decide
  | 13 => by decide
  | 14 => by decide
  | 15 => by decide
  | n + 16 => by
    unfold Nat.digitChar
    repeat rw [if_neg (by omega)]
    decide

theorem toDigitsCore_chars (b : Nat) :
    ∀ (fuel n : Nat) (ds : List Char), ∀ c ∈ Nat.toDigitsCore b fuel n ds,
      c ∈ ds ∨ ∃ m, c = Nat.digitChar m := by
  intro fuel
  induction fuel with
  | zero =>
    intro n ds c hc
    exact Or.inl hc
  | succ fuel ih =>
    intro n ds c hc
    rw [Nat.toDigitsCore] at hc
    split at hc
    · rcases List.mem_cons.mp hc with h | h
      · exact Or.inr ⟨n % b, h⟩
      · exact Or.inl h
    · rcases ih (n / b) (Nat.digitChar (n % b) :: ds) c hc with h | h
      · rcases List.mem_cons.mp h with h2 | h2
        · exact Or.inr ⟨n % b, h2⟩
        · exact Or.inl h2
      · exact Or.inr h

theorem natRepr_no_dollar (n : Nat) : '$' ∉ (Nat.repr n).data := by
  intro hmem
  have h : '$' ∈ Nat.toDigitsCore 10 (n + 1) n [] := by
    simpa [Nat.repr, Nat.toDigits, List.asString] using hmem
  rcases toDigitsCore_chars 10 (n + 1) n [] '$' h with h2 | ⟨m, hm⟩
  · simp at h2
  · exact digitChar_ne_dollar m hm.symm

theorem count_dollar_strJoin (sep : String) (hsep : '$' ∉ sep.data) (xs : List String) :
    (strJoin sep xs).data.count '$' = (xs.map (fun x => x.data.count '$')).sum := by
  induction xs with
  | nil => simp [strJoin]
  | cons x rest ih =>
    cases rest with
    | nil => simp [strJoin]
    | cons y t =>
      simp only [strJoin, String.data_append, List.count_append, List.map_cons, List.sum_cons]
      rw [List.count_eq_zero.mpr hsep]
      simp only [strJoin, List.map_cons, List.sum_cons] at ih
      omega

theorem insertPlaceholders_count (n : Nat) :
    ((insertPlaceholders n).map (fun x => x.data.count '$')).sum = n := by
  unfold insertPlaceholders
  have h1 : ∀ i : Nat, (("$" ++ Nat.repr (i + 1)).data.count '$') = 1 := by
    intro i
    rw [String.data_append]
    have h2 : ("$" : String).data = ['$'] := rfl
    rw [h2]
    simp [List.count_append, List.count_cons, List.count_eq_zero.mpr (natRepr_no_dollar (i + 1))]
  rw [List.map_map]
  have h3 : ((fun x : String => x.data.count '$') ∘ fun i : Nat => "$" ++ Nat.repr (i + 1)) =
      fun _ : Nat => 1 := by
    funext i
    exact h1 i
  rw [h3]
  induction n with
  | zero => simp
  | succ m ihm => simp [List.range_succ, ihm]

theorem strContains_text_clause (pre post : List Char) (sep x : String) (xs : List String)
    (hx : x ∈ xs) (s : String)
    (hs : s.data = pre ++ ((strJoin sep xs).data ++ post)) :
    strContains s x = true := by
  obtain ⟨a, b, hab⟩ := strJoin_data_split sep xs x hx
  apply strContains_of_split s x (pre ++ a) (b ++ post)
  rw [hs, hab]
  simp [List.append_assoc]

/-! ## Claim theorems -/

/-- Claim C6 (confirmed): for every `count_rows` invocation whose
`where_conditions` is present but not an object, the call fails with
`InvalidParameters` and no database query is performed: the pipeline result
is the error whatever the database query function would answer, so that
function is never consulted. -/
theorem c6_count_rows_invalid_params (table : String) (w : Json) (hw : w.asObj = none) :
    count_rows_stmt table (some w) =
      Except.error (McpErr.invalidParams "WHERE conditions must be a JSON object") ∧
    ∀ runQuery : String → Int,
      count_rows_run table (some w) runQuery =
        Except.error (McpErr.invalidParams "WHERE conditions must be a JSON object") := by
  have h1 : count_rows_stmt table (some w) =
      Except.error (McpErr.invalidParams "WHERE conditions must be a JSON object") := by
    simp only [count_rows_stmt, hw]
  refine ⟨h1, fun runQuery => ?_⟩
  unfold count_rows_run
  rw [h1]
  rfl

/-- Witness for C6: a string-valued `where_conditions` at a concrete input. -/
theorem c6_count_rows_invalid_params_witness :
    count_rows_run "users" (some (Json.str "oops")) (fun _ => 0) =
      Except.error (McpErr.invalidParams "WHERE conditions must be a JSON object") :=
  (c6_count_rows_invalid_params "users" (Json.str "oops") rfl).2 (fun _ => 0)

/-- Claim C2 counterexample: the claim says a requested limit of 0 (or any
negative value) yields the default 10 and that the embedded limit always lies
in [1,100]; the code computes `unwrap_or(10).min(100)`, which has no lower
clamp, so a requested 0 is embedded as 0. -/
theorem c2_limit_clamp_cex :
    get_table_sample_query "t" (some 0) = "SELECT * FROM t LIMIT 0" ∧
    sampleLimit (some 0) = 0 ∧
    ¬ sampleLimit (some 0) = 10 ∧
    ¬ 1 ≤ sampleLimit (some 0) ∧
    sampleLimit (some (-3)) = -3 := by
  refine ⟨by decide, by decide, by decide, by decide, by decide⟩

/-- Claim C2 amended: `get_table_sample` embeds `limit.unwrap_or(10).min(100)`
as a literal integer: a requested value greater than 100 yields 100, an absent
value yields the default 10, and any requested value at most 100 — including
0 and negative values — is embedded unchanged. -/
theorem c2_limit_amended (limit : Option Int) (table : String) :
    (limit = none → sampleLimit limit = 10) ∧
    (∀ v : Int, limit = some v →
      (100 < v → sampleLimit limit = 100) ∧ (v ≤ 100 → sampleLimit limit = v)) ∧
    get_table_sample_query table limit =
      "SELECT * FROM " ++ table ++ " LIMIT " ++ Int.repr (sampleLimit limit) := by
  refine ⟨?_, ?_, rfl⟩
  · rintro rfl
    rfl
  · rintro v rfl
    constructor
    · intro hv
      simp only [sampleLimit, Option.getD_some]
      exact min_eq_right (le_of_lt hv)
    · intro hv
      simp only [sampleLimit, Option.getD_some]
      exact min_eq_left hv

/-- Witness for C2 amended: requested 500 yields 100, requested 7 yields 7,
absent yields 10. -/
theorem c2_limit_amended_witness :
    sampleLimit (some 500) = 100 ∧ sampleLimit (some 7) = 7 ∧ sampleLimit none = 10 :=
  ⟨((c2_limit_amended (some 500) "t").2.1 500 rfl).1 (by decide),
   ((c2_limit_amended (some 7) "t").2.1 7 rfl).2 (by decide),
   (c2_limit_amended none "t").1 rfl⟩

/-- Claim C10 (confirmed): for every non-string JSON value in `count_rows`'
where_conditions, `update_data`'s values or where_conditions, or
`delete_data`'s where_conditions, the generated comparison or SET clause uses
the empty-string literal in place of the value: the clause is
`k = ''`, and that clause occurs verbatim in each generated SQL text. -/
theorem c10_nonstring_empty_literal (table k : String) (v : Json)
    (fields : List (String × Json)) (hv : v.asStr = none) (hmem : (k, v) ∈ fields) :
    eqClause (k, v) = k ++ " = \x27\x27" ∧
    strContains (countWhereText table fields) (eqClause (k, v)) = true ∧
    (∀ limit : Int, strContains (deleteText table fields limit) (eqClause (k, v)) = true) ∧
    (∀ (whereF : List (String × Json)) (limit : Int),
      strContains (updateText table fields whereF limit) (eqClause (k, v)) = true) ∧
    (∀ (setF : List (String × Json)) (limit : Int),
      strContains (updateText table setF fields limit) (eqClause (k, v)) = true) := by
  have he : eqClause (k, v) = k ++ " = \x27\x27" := by
    unfold eqClause
    rw [show (k, v).2.asStr = none from hv]
    rw [Option.getD_none, String.append_empty, String.append_assoc]
    rfl
  have hmem2 : eqClause (k, v) ∈ fields.map eqClause := List.mem_map_of_mem eqClause hmem
  refine ⟨he, ?_, ?_, ?_, ?_⟩
  · apply strContains_text_clause
      (("SELECT COUNT(*) FROM " ++ table ++ " WHERE ").data) [] " AND " _ _ hmem2
    simp [countWhereText, List.append_assoc]
  · intro limit
    apply strContains_text_clause
      (("DELETE FROM " ++ table ++ " WHERE ").data)
      ((" LIMIT " ++ Int.repr limit).data) " AND " _ _ hmem2
    simp [deleteText, List.append_assoc]
  · intro whereF limit
    apply strContains_text_clause
      (("UPDATE " ++ table ++ " SET ").data)
      ((" WHERE " ++ strJoin " AND " (whereF.map eqClause) ++ " LIMIT " ++ Int.repr limit).data)
      ", " _ _ hmem2
    simp [updateText, List.append_assoc]
  · intro setF limit
    apply strContains_text_clause
      (("UPDATE " ++ table ++ " SET " ++ strJoin ", " (setF.map eqClause) ++ " WHERE ").data)
      ((" LIMIT " ++ Int.repr limit).data) " AND " _ _ hmem2
    simp [updateText, List.append_assoc]

/-- Witness for C10: a numeric value in a delete filter becomes the
empty-string comparison, which appears in the generated DELETE text. -/
theorem c10_nonstring_empty_literal_witness :
    eqClause ("a", Json.num (JNum.int 5)) = "a = \x27\x27" ∧
    strContains (deleteText "t" [("a", Json.num (JNum.int 5))] 1000)
      (eqClause ("a", Json.num (JNum.int 5))) = true := by
  have h := c10_nonstring_empty_literal "t" "a" (Json.num (JNum.int 5))
    [("a", Json.num (JNum.int 5))] rfl (by simp)
  exact ⟨h.1, h.2.2.1 1000⟩

/-- Claim C9 counterexample: the claim says non-string values in
`update_data`'s values map go through the stringify-then-strip-quotes
coercion (which would turn the number 42 into the text 42); the code instead
uses `as_str().unwrap_or("")`, so the number 42 becomes the empty string in
the SET clause. -/
theorem c9_coercion_cex :
    update_data "t" (Json.obj [("a", Json.num (JNum.int 42))])
        (Json.obj [("b", Json.str "w")]) none =
      Except.ok ⟨"UPDATE t SET a = \x27\x27 WHERE b = \x27w\x27 LIMIT 1000", []⟩ ∧
    stripQuotes (renderJson (Json.num (JNum.int 42))) = "42" ∧
    eqClause ("a", Json.num (JNum.int 42)) = "a = \x27\x27" ∧
    "a = \x27\x27" ≠ "a = \x2742\x27" ∧
    strContains "UPDATE t SET a = \x27\x27 WHERE b = \x27w\x27 LIMIT 1000"
      "a = \x2742\x27" = false := by
  refine ⟨rfl, by decide, by decide, by decide, by decide⟩

/-- Claim C9 amended: only `insert_data` routes values through the
stringify-then-strip-quotes coercion; `update_data`'s values and
where_conditions and `delete_data`'s where_conditions use
`as_str().unwrap_or("")`, which turns every non-string value into the empty
string inside the clause. -/
theorem c9_coercion_amended (table k : String) (v : Json)
    (fields : List (String × Json)) (hv : v.asStr = none) :
    insert_data table (Json.obj fields) =
      Except.ok ⟨insertText table (fields.map (fun kv => kv.1)),
        fields.map (fun kv => stripQuotes (renderJson kv.2))⟩ ∧
    eqClause (k, v) = k ++ " = \x27\x27" ∧
    (∀ (setF whereF : List (String × Json)) (limit : Int),
      updateText table setF whereF limit =
        "UPDATE " ++ table ++ " SET " ++ strJoin ", " (setF.map eqClause) ++
          " WHERE " ++ strJoin " AND " (whereF.map eqClause) ++ " LIMIT " ++ Int.repr limit) ∧
    (∀ (whereF : List (String × Json)) (limit : Int),
      deleteText table whereF limit =
        "DELETE FROM " ++ table ++ " WHERE " ++ strJoin " AND " (whereF.map eqClause) ++
          " LIMIT " ++ Int.repr limit) := by
  refine ⟨rfl, ?_, fun _ _ _ => rfl, fun _ _ => rfl⟩
  unfold eqClause
  rw [show (k, v).2.asStr = none from hv]
  rw [Option.getD_none, String.append_empty, String.append_assoc]
  rfl

/-- Witness for C9 amended: a boolean where-value becomes the empty string,
while the same value under insert's coercion would be the text true. -/
theorem c9_coercion_amended_witness :
    eqClause ("flag", Json.bool true) = "flag = \x27\x27" ∧
    insert_data "t" (Json.obj [("flag", Json.bool true)]) =
      Except.ok ⟨insertText "t" ["flag"], [stripQuotes (renderJson (Json.bool true))]⟩ := by
  have h := c9_coercion_amended "t" "flag" (Json.bool true) [("flag", Json.bool true)] rfl
  exact ⟨h.2.1, h.1⟩

/-- Claim C5 counterexample: for the query "selected 1" the leading keyword
(maximal alphabetic run after trimming) is "selected", which is not SELECT in
any casing, so the claim requires row-affecting execution; the code
classifies by string prefix and executes it as row-returning, responding with
a row set. -/
theorem c5_keyword_cex :
    toUpperChars (leadingKeyword "selected 1").data = "SELECTED".data ∧
    "SELECTED" ≠ "SELECT" ∧
    isSelectQuery "selected 1" = true ∧
    execute_raw_query "selected 1" [] 0 = RawOutcome.rowSet [] 0 ∧
    RawOutcome.rowSet [] 0 ≠ RawOutcome.rowsAffected 0 := by
  refine ⟨by decide, by decide, by decide, ?_, fun h => RawOutcome.noConfusion h⟩
  have h : isSelectQuery "selected 1" = true := by decide
  unfold execute_raw_query
  rw [h]
  rfl

/-- Claim C5 amended: `execute_raw_query` classifies by testing whether the
trimmed, upper-cased query text starts with the prefix SELECT (not whether
its leading keyword equals SELECT): when that prefix test succeeds the
statement is executed as row-returning and the response is a row set whose
count equals the number of returned rows; otherwise it is executed as
row-affecting and the response is a rows_affected count. -/
theorem c5_raw_query_amended (q : String) (queryRows : List PgRow) (execCount : Nat) :
    (isSelectQuery q = true →
      execute_raw_query q queryRows execCount =
        RawOutcome.rowSet (queryRows.map row_to_json) (queryRows.map row_to_json).length ∧
      (queryRows.map row_to_json).length = queryRows.length) ∧
    (isSelectQuery q = false →
      execute_raw_query q queryRows execCount = RawOutcome.rowsAffected execCount) ∧
    isSelectQuery q = List.isPrefixOf "SELECT".data (toUpperChars (trimChars q.data)) := by
  refine ⟨?_, ?_, rfl⟩
  · intro h
    unfold execute_raw_query
    rw [h]
    exact ⟨rfl, List.length_map _ _⟩
  · intro h
    unfold execute_raw_query
    rw [h]
    rfl

/-- Witness for C5 amended: a SELECT with odd casing and leading whitespace
returns a row set with the row count; an UPDATE returns rows_affected. -/
theorem c5_raw_query_amended_witness :
    execute_raw_query "  sEleCt 1" [[(⟨"x", "int8"⟩, PgRaw.rInt 1)]] 0 =
      RawOutcome.rowSet [Json.obj [("x", Json.num (JNum.int 1))]] 1 ∧
    execute_raw_query "UPDATE t SET x = 1" [] 3 = RawOutcome.rowsAffected 3 := by
  have h1 := ((c5_raw_query_amended "  sEleCt 1" [[(⟨"x", "int8"⟩, PgRaw.rInt 1)]] 0).1
    (by decide)).1
  have h2 := (c5_raw_query_amended "UPDATE t SET x = 1" [] 3).2.1 (by decide)
  constructor
  · rw [h1]
    rfl
  · exact h2

/-- Claim C3 (confirmed): `row_to_json` dispatches on the column's declared
type tag — integer family to a 64-bit integer, floating family to a 64-bit
float, boolean family to a boolean, character family to text, any other tag
to best-effort text — and any per-column conversion failure yields Null for
that column while the rest of the row is still returned (one record entry per
column, keyed by column name, in column order); a row with an integer, a
float, a boolean and a text column marshals to a record whose field kinds
match those primitive kinds exactly. -/
theorem c3_row_marshalling (tn : String) (raw : PgRaw) :
    ((tn = "int4" ∨ tn = "int8") → colToJson tn raw =
      (match tryGetI64 raw with
       | some v => Json.num (JNum.int v)
       | none => Json.null)) ∧
    ((tn = "float4" ∨ tn = "float8") → colToJson tn raw =
      (match tryGetF64 raw with
       | some bits => Json.num (JNum.float bits)
       | none => Json.null)) ∧
    (tn = "bool" → colToJson tn raw =
      (match tryGetBool raw with
       | some b => Json.bool b
       | none => Json.null)) ∧
    ((tn = "text" ∨ tn = "varchar") → colToJson tn raw =
      (match tryGetString raw with
       | some s => Json.str s
       | none => Json.null)) ∧
    (tn ∉ ["int4", "int8", "float4", "float8", "bool", "text", "varchar"] →
      colToJson tn raw =
        (match tryGetString raw with
         | some s => Json.str s
         | none => Json.null)) ∧
    (∀ row : PgRow, ∃ fields,
      row_to_json row = Json.obj fields ∧
      fields.length = row.length ∧
      fields.map Prod.fst = row.map (fun cr => cr.1.name)) ∧
    row_to_json
        [(⟨"a", "int8"⟩, PgRaw.rInt 7), (⟨"b", "float8"⟩, PgRaw.rFloat 42),
         (⟨"c", "bool"⟩, PgRaw.rBool true), (⟨"d", "text"⟩, PgRaw.rText "x")] =
      Json.obj [("a", Json.num (JNum.int 7)), ("b", Json.num (JNum.float 42)),
        ("c", Json.bool true), ("d", Json.str "x")] ∧
    row_to_json [(⟨"a", "int8"⟩, PgRaw.rNull), (⟨"d", "text"⟩, PgRaw.rText "x")] =
      Json.obj [("a", Json.null), ("d", Json.str "x")] := by
  refine ⟨?_, ?_, ?_, ?_, ?_, ?_, rfl, rfl⟩
  · rintro (rfl | rfl)
    · unfold colToJson
      rw [if_pos (Or.inl rfl)]
    · unfold colToJson
      rw [if_pos (Or.inr rfl)]
  · rintro (rfl | rfl)
    · unfold colToJson
      rw [if_neg (by decide), if_pos (Or.inl rfl)]
    · unfold colToJson
      rw [if_neg (by decide), if_pos (Or.inr rfl)]
  · rintro rfl
    unfold colToJson
    rw [if_neg (by decide), if_neg (by decide), if_pos rfl]
  · rintro (rfl | rfl)
    · unfold colToJson
      rw [if_neg (by decide), if_neg (by decide), if_neg (by decide), if_pos (Or.inl rfl)]
    · unfold colToJson
      rw [if_neg (by decide), if_neg (by decide), if_neg (by decide), if_pos (Or.inr rfl)]
  · intro h
    have h2 : tn ≠ "int4" ∧ tn ≠ "int8" ∧ tn ≠ "float4" ∧ tn ≠ "float8" ∧
        tn ≠ "bool" ∧ tn ≠ "text" ∧ tn ≠ "varchar" := by
      simpa using h
    obtain ⟨h1, h2, h3, h4, h5, h6, h7⟩ := h2
    unfold colToJson
    rw [if_neg (fun hc => hc.elim h1 h2), if_neg (fun hc => hc.elim h3 h4),
      if_neg h5, if_neg (fun hc => hc.elim h6 h7)]
  · intro row
    have hrow : row_to_json row =
        Json.obj (row.map (fun cr => (cr.1.name, colToJson cr.1.typeName cr.2))) := rfl
    refine ⟨row.map (fun cr => (cr.1.name, colToJson cr.1.typeName cr.2)), hrow, ?_, ?_⟩
    · simp
    · simp

/-- Witness for C3: dispatch at concrete inputs — a readable int4 column
becomes an integer, a float4 column whose value cannot be decoded as f64
becomes Null. -/
theorem c3_row_marshalling_witness :
    colToJson "int4" (PgRaw.rInt 5) = Json.num (JNum.int 5) ∧
    colToJson "float4" (PgRaw.rText "zzz") = Json.null ∧
    colToJson "numeric" (PgRaw.rText "3.14") = Json.str "3.14" := by
  refine ⟨(c3_row_marshalling "int4" (PgRaw.rInt 5)).1 (Or.inl rfl),
    (c3_row_marshalling "float4" (PgRaw.rText "zzz")).2.1 (Or.inl rfl),
    (c3_row_marshalling "numeric" (PgRaw.rText "3.14")).2.2.2.2.1 (by decide)⟩

/-- Claim C4 (confirmed): for every `update_data` and `delete_data` invocation
with object-shaped arguments, the built WHERE clause is the AND-join of one
equality comparison per where_conditions entry, and the supplied limit (or
the default 1000) is appended as a query-level LIMIT; under the spec-modelled
treatment of a query-level limit by the external database (`dbApplyLimit`),
any reported rows_affected count never exceeds that limit. -/
theorem c4_update_delete_where_limit (table : String) (values whereC : Json)
    (setF whereF : List (String × Json)) (limit : Option Int)
    (hv : values.asObj = some setF) (hw : whereC.asObj = some whereF) :
    update_data table values whereC limit =
      Except.ok ⟨updateText table setF whereF (limit.getD 1000), []⟩ ∧
    delete_data table whereC limit =
      Except.ok ⟨deleteText table whereF (limit.getD 1000), []⟩ ∧
    updateText table setF whereF (limit.getD 1000) =
      "UPDATE " ++ table ++ " SET " ++ strJoin ", " (setF.map eqClause) ++
        " WHERE " ++ strJoin " AND " (whereF.map eqClause) ++
        " LIMIT " ++ Int.repr (limit.getD 1000) ∧
    deleteText table whereF (limit.getD 1000) =
      "DELETE FROM " ++ table ++ " WHERE " ++ strJoin " AND " (whereF.map eqClause) ++
        " LIMIT " ++ Int.repr (limit.getD 1000) ∧
    (whereF.map eqClause).length = whereF.length ∧
    (∀ kv ∈ whereF, eqClause kv = kv.1 ++ " = \x27" ++ (kv.2.asStr.getD "") ++ "\x27") ∧
    (∀ (matched n : Nat), dbApplyLimit matched (limit.getD 1000) = some n →
      (n : Int) ≤ limit.getD 1000) := by
  refine ⟨?_, ?_, rfl, rfl, List.length_map _ _, fun kv _ => rfl, ?_⟩
  · simp only [update_data, hv, hw]
  · simp only [delete_data, hw]
  · intro matched n hmn
    unfold dbApplyLimit at hmn
    split at hmn
    · exact absurd hmn (by simp)
    · rename_i hnneg
      have heq := Option.some.inj hmn
      subst heq
      have h1 : min matched (limit.getD 1000).toNat ≤ (limit.getD 1000).toNat :=
        Nat.min_le_right _ _
      have h2 : ((limit.getD 1000).toNat : Int) = limit.getD 1000 :=
        Int.toNat_of_nonneg (by omega)
      omega

/-- Witness for C4: a concrete update with limit 5; a database match count of
9 is capped to 5, which does not exceed the limit. -/
theorem c4_update_delete_where_limit_witness :
    update_data "t" (Json.obj [("a", Json.str "v")]) (Json.obj [("b", Json.str "w")])
        (some 5) =
      Except.ok ⟨updateText "t" [("a", Json.str "v")] [("b", Json.str "w")] 5, []⟩ ∧
    dbApplyLimit 9 5 = some 5 ∧ (5 : Int) ≤ 5 := by
  have h := c4_update_delete_where_limit "t" (Json.obj [("a", Json.str "v")])
    (Json.obj [("b", Json.str "w")]) [("a", Json.str "v")] [("b", Json.str "w")]
    (some 5) rfl rfl
  exact ⟨h.1, by decide, h.2.2.2.2.2.2 9 5 (by decide)⟩

theorem countDollar_insertText (table : String) (cols : List String)
    (htable : ('$' : Char) ∉ table.data) (hcols : ∀ k ∈ cols, ('$' : Char) ∉ k.data) :
    countDollar (insertText table cols) = cols.length := by
  unfold countDollar insertText
  simp only [String.data_append, List.count_append]
  have hsep : ('$' : Char) ∉ (", " : String).data := by decide
  rw [count_dollar_strJoin _ hsep cols, count_dollar_strJoin _ hsep (insertPlaceholders cols.length)]
  rw [insertPlaceholders_count]
  have hc0 : (cols.map (fun x => x.data.count '$')).sum = 0 := by
    apply List.sum_eq_zero
    intro x hx
    obtain ⟨k, hk, rfl⟩ := List.mem_map.mp hx
    exact List.count_eq_zero.mpr (hcols k hk)
  rw [hc0]
  have h1 : List.count '$' ['I', 'N', 'S', 'E', 'R', 'T', ' ', 'I', 'N', 'T', 'O', ' '] = 0 := by
    decide
  have h2 : List.count '$' [' ', '('] = 0 := by decide
  have h3 : List.count '$' [')', ' ', 'V', 'A', 'L', 'U', 'E', 'S', ' ', '('] = 0 := by decide
  have h4 : List.count '$' [')'] = 0 := by decide
  have h5 : List.count '$' table.data = 0 := List.count_eq_zero.mpr htable
  omega

/-- Claim C1 counterexample: `delete_data` embeds the caller-supplied value
alice literally in its SQL text while binding nothing, and
`execute_raw_query` never binds its params array, so a query text holding one
placeholder is issued with an empty bound-value list. -/
theorem c1_statement_invariant_cex :
    delete_data "t" (Json.obj [("name", Json.str "alice")]) none =
      Except.ok ⟨"DELETE FROM t WHERE name = \x27alice\x27 LIMIT 1000", []⟩ ∧
    strContains "DELETE FROM t WHERE name = \x27alice\x27 LIMIT 1000" "alice" = true ∧
    countDollar (execute_raw_stmt "SELECT * FROM t WHERE a = $1"
      (some [Json.str "x"])).text = 1 ∧
    (execute_raw_stmt "SELECT * FROM t WHERE a = $1" (some [Json.str "x"])).binds = [] := by
  exact ⟨rfl, by decide, by decide, rfl⟩

theorem strContains_trans (s t u : String) (hst : strContains s t = true)
    (htu : strContains t u = true) : strContains s u = true := by
  obtain ⟨a, b, hab⟩ := (containsSub_iff s.data t.data).mp hst
  obtain ⟨c, d, hcd⟩ := (containsSub_iff t.data u.data).mp htu
  refine (containsSub_iff s.data u.data).mpr ⟨a ++ c, d ++ b, ?_⟩
  rw [hab, hcd]
  simp [List.append_assoc]

theorem strContains_eqClause_value (kv : String × Json) :
    strContains (eqClause kv) (kv.2.asStr.getD "") = true := by
  apply strContains_of_split _ _ (kv.1 ++ " = \x27").data ("\x27" : String).data
  simp [eqClause, List.append_assoc]

/-- Claim C1 amended: only `insert_data` satisfies the full invariant — its
bound-value list length equals both the number of data entries and the number
of placeholder markers in its text, and its text is independent of the
submitted values (it depends only on the table name and the keys).  The
remaining operations bind no values at all: `count_rows`, `update_data` and
`delete_data` embed each where/set value (under the as_str-or-empty coercion)
literally inside the SQL text through its equality clause, `get_table_sample`
embeds the clamped limit literally, and `query_data` and `execute_raw_query`
pass the caller's SQL verbatim with an empty bind list regardless of any
placeholders it contains. -/
theorem c1_statement_invariant_amended (table : String) (fields : List (String × Json))
    (htable : ('$' : Char) ∉ table.data)
    (hcols : ∀ kv ∈ fields, ('$' : Char) ∉ kv.1.data) :
    insert_data table (Json.obj fields) =
      Except.ok ⟨insertText table (fields.map (fun kv => kv.1)),
        fields.map (fun kv => insertValue kv.2)⟩ ∧
    countDollar (insertText table (fields.map (fun kv => kv.1))) = fields.length ∧
    (fields.map (fun kv => insertValue kv.2)).length = fields.length ∧
    (∀ fields2 : List (String × Json),
      fields2.map (fun kv => kv.1) = fields.map (fun kv => kv.1) →
      (insert_data table (Json.obj fields2)).map Stmt.text =
        (insert_data table (Json.obj fields)).map Stmt.text) ∧
    count_rows_stmt table (some (Json.obj fields)) =
      Except.ok ⟨countWhereText table fields, []⟩ ∧
    (∀ kv ∈ fields,
      strContains (countWhereText table fields) (eqClause kv) = true ∧
      strContains (countWhereText table fields) (kv.2.asStr.getD "") = true) ∧
    (∀ (whereF : List (String × Json)) (limit : Option Int),
      update_data table (Json.obj fields) (Json.obj whereF) limit =
        Except.ok ⟨updateText table fields whereF (limit.getD 1000), []⟩ ∧
      (∀ kv ∈ fields,
        strContains (updateText table fields whereF (limit.getD 1000))
          (kv.2.asStr.getD "") = true) ∧
      (∀ kv ∈ whereF,
        strContains (updateText table fields whereF (limit.getD 1000))
          (kv.2.asStr.getD "") = true)) ∧
    (∀ limit : Option Int,
      delete_data table (Json.obj fields) limit =
        Except.ok ⟨deleteText table fields (limit.getD 1000), []⟩ ∧
      (∀ kv ∈ fields,
        strContains (deleteText table fields (limit.getD 1000))
          (kv.2.asStr.getD "") = true)) ∧
    (∀ limit : Option Int,
      get_table_sample_stmt table limit =
        ⟨"SELECT * FROM " ++ table ++ " LIMIT " ++ Int.repr (sampleLimit limit), []⟩ ∧
      strContains (get_table_sample_query table limit)
        (Int.repr (sampleLimit limit)) = true) ∧
    (∀ q : String, query_data_stmt q = ⟨q, []⟩) ∧
    (∀ (q : String) (ps : Option (List Json)), execute_raw_stmt q ps = ⟨q, []⟩) := by
  refine ⟨rfl, ?_, List.length_map _ _, ?_, rfl, ?_, ?_, ?_, ?_,
    fun _ => rfl, fun _ _ => rfl⟩
  · have hk : ∀ k ∈ fields.map (fun kv => kv.1), ('$' : Char) ∉ k.data := by
      intro k hk
      obtain ⟨kv, hkv, rfl⟩ := List.mem_map.mp hk
      exact hcols kv hkv
    have h := countDollar_insertText table (fields.map (fun kv => kv.1)) htable hk
    simpa using h
  · intro fields2 hkeys
    show (Except.ok (insertText table (fields2.map (fun kv => kv.1))) : Except McpErr String) =
      Except.ok (insertText table (fields.map (fun kv => kv.1)))
    rw [hkeys]
  · intro kv hkv
    have hc : strContains (countWhereText table fields) (eqClause kv) = true := by
      apply strContains_text_clause
        (("SELECT COUNT(*) FROM " ++ table ++ " WHERE ").data) [] " AND " _ _
        (List.mem_map_of_mem eqClause hkv)
      simp [countWhereText, List.append_assoc]
    exact ⟨hc, strContains_trans _ _ _ hc (strContains_eqClause_value kv)⟩
  · intro whereF limit
    refine ⟨rfl, ?_, ?_⟩
    · intro kv hkv
      have hc : strContains (updateText table fields whereF (limit.getD 1000))
          (eqClause kv) = true := by
        apply strContains_text_clause (("UPDATE " ++ table ++ " SET ").data)
          ((" WHERE " ++ strJoin " AND " (whereF.map eqClause) ++ " LIMIT " ++
            Int.repr (limit.getD 1000)).data) ", " _ _
          (List.mem_map_of_mem eqClause hkv)
        simp [updateText, List.append_assoc]
      exact strContains_trans _ _ _ hc (strContains_eqClause_value kv)
    · intro kv hkv
      have hc : strContains (updateText table fields whereF (limit.getD 1000))
          (eqClause kv) = true := by
        apply strContains_text_clause
          (("UPDATE " ++ table ++ " SET " ++ strJoin ", " (fields.map eqClause) ++
            " WHERE ").data)
          ((" LIMIT " ++ Int.repr (limit.getD 1000)).data) " AND " _ _
          (List.mem_map_of_mem eqClause hkv)
        simp [updateText, List.append_assoc]
      exact strContains_trans _ _ _ hc (strContains_eqClause_value kv)
  · intro limit
    refine ⟨rfl, ?_⟩
    intro kv hkv
    have hc : strContains (deleteText table fields (limit.getD 1000))
        (eqClause kv) = true := by
      apply strContains_text_clause (("DELETE FROM " ++ table ++ " WHERE ").data)
        ((" LIMIT " ++ Int.repr (limit.getD 1000)).data) " AND " _ _
        (List.mem_map_of_mem eqClause hkv)
      simp [deleteText, List.append_assoc]
    exact strContains_trans _ _ _ hc (strContains_eqClause_value kv)
  · intro limit
    refine ⟨rfl, ?_⟩
    apply strContains_of_split _ _ (("SELECT * FROM " ++ table ++ " LIMIT ").data) []
    simp [get_table_sample_query, List.append_assoc]

/-- Witness for C1 amended at a concrete input: two placeholders for two
bound values in the insert, the where-values appearing literally in the
count and delete texts, and the clamped limit 0 appearing literally in the
sample text. -/
theorem c1_statement_invariant_amended_witness :
    countDollar (insertText "t"
      (([("a", Json.str "x"), ("b", Json.num (JNum.int 2))] :
        List (String × Json)).map (fun kv => kv.1))) = 2 ∧
    strContains (countWhereText "t" [("a", Json.str "x"), ("b", Json.num (JNum.int 2))])
      (eqClause ("b", Json.num (JNum.int 2))) = true ∧
    strContains (deleteText "t" [("a", Json.str "x"), ("b", Json.num (JNum.int 2))] 1000)
      (("a", Json.str "x").2.asStr.getD "") = true ∧
    strContains (get_table_sample_query "t" (some 0))
      (Int.repr (sampleLimit (some 0))) = true := by
  have h := c1_statement_invariant_amended "t"
    [("a", Json.str "x"), ("b", Json.num (JNum.int 2))] (by decide) (by decide)
  obtain ⟨h1, h2, h3, h4, h5, h6, h7, h8, h9, h10, h11⟩ := h
  refine ⟨h2, (h6 ("b", Json.num (JNum.int 2)) (by simp)).1, ?_, (h9 (some 0)).2⟩
  exact (h8 none).2 ("a", Json.str "x") (by simp)

/-- Claim C7 counterexample: when the password value also occurs elsewhere in
the connection string (here as the user value), it does appear in the
sanitized log string, and `get_connection_status` reports it as the user
field. -/
theorem c7_password_cex :
    sanitize_connection_string "user=secret password=secret" =
      "user=secret password=***" ∧
    strContains (sanitize_connection_string "user=secret password=secret")
      "secret" = true ∧
    (get_connection_status_fields "user=secret password=secret").2.1 = "secret" := by
  refine ⟨by decide, by decide, by decide⟩

/-- Claim C7 amended: `sanitize_connection_string` replaces the value after
the first `password=` occurrence up to the next space with `***`, leaving the
rest of the string unchanged; consequently the password value is absent from
the sanitized string whenever it does not also occur in those unchanged
parts.  The fields of `get_connection_status`'s response are drawn only from
whitespace-separated tokens carrying the respective key prefix (or fixed
defaults), never from the password token — but either output can still
exhibit the password when it coincides with another token's value, as the
counterexample shows. -/
theorem c7_password_mask_amended (p v r : List Char)
    (hfind : findSubIdx (p ++ "password=".data ++ v ++ [' '] ++ r) "password=".data =
      some p.length)
    (hv : ∀ c ∈ v, c ≠ ' ') :
    sanitizeChars (p ++ "password=".data ++ v ++ [' '] ++ r) =
      p ++ "password=***".data ++ [' '] ++ r ∧
    (containsSub (p ++ "password=***".data ++ [' '] ++ r) v = false →
      containsSub (sanitizeChars (p ++ "password=".data ++ v ++ [' '] ++ r)) v = false) ∧
    (∀ (conf key dflt : String),
      confToken conf key dflt = dflt ∨
      ∃ w ∈ wordsOf conf, List.isPrefixOf key.data w = true ∧
        confToken conf key dflt = String.mk (w.drop key.length)) := by
  have hdata : p ++ "password=".data ++ v ++ [' '] ++ r =
      (p ++ "password=".data) ++ (v ++ (' ' :: r)) := by
    simp [List.append_assoc]
  have hmain : sanitizeChars (p ++ "password=".data ++ v ++ [' '] ++ r) =
      p ++ "password=***".data ++ [' '] ++ r := by
    have h1 : sanitizeChars (p ++ "password=".data ++ v ++ [' '] ++ r) =
        (let sanitized :=
          (p ++ "password=".data ++ v ++ [' '] ++ r).take p.length ++ "password=***".data
        let afterPwd := (p ++ "password=".data ++ v ++ [' '] ++ r).drop (p.length + 9)
        match findCharIdx afterPwd ' ' with
        | some spacePos => sanitized ++ afterPwd.drop spacePos
        | none => sanitized) := by
      unfold sanitizeChars
      rw [hfind]
    rw [h1]
    have htake : (p ++ "password=".data ++ v ++ [' '] ++ r).take p.length = p := by
      rw [show p ++ "password=".data ++ v ++ [' '] ++ r =
        p ++ ("password=".data ++ (v ++ ([' '] ++ r))) from by simp [List.append_assoc]]
      exact List.take_left p _
    have hdrop : (p ++ "password=".data ++ v ++ [' '] ++ r).drop (p.length + 9) =
        v ++ (' ' :: r) := by
      rw [hdata]
      exact List.drop_left' (by simp)
    rw [htake, hdrop]
    show (match findCharIdx (v ++ ' ' :: r) ' ' with
      | some spacePos => (p ++ "password=***".data) ++ List.drop spacePos (v ++ ' ' :: r)
      | none => p ++ "password=***".data) =
      p ++ "password=***".data ++ [' '] ++ r
    rw [findCharIdx_append_space v r hv]
    show (p ++ "password=***".data) ++ List.drop v.length (v ++ ' ' :: r) =
      p ++ "password=***".data ++ [' '] ++ r
    rw [List.drop_left' rfl]
    simp [List.append_assoc]
  refine ⟨hmain, ?_, ?_⟩
  · intro habs
    rw [hmain]
    exact habs
  · intro conf key dflt
    unfold confToken
    cases hfw : (wordsOf conf).find? (fun w => List.isPrefixOf key.data w) with
    | none => exact Or.inl rfl
    | some w =>
      exact Or.inr ⟨w, List.mem_of_find?_eq_some hfw, List.find?_some hfw, rfl⟩

/-- Witness for C7 amended: masking a concrete connection string. -/
theorem c7_password_mask_amended_witness :
    sanitizeChars ("host=h ".data ++ "password=".data ++ "pw".data ++ [' '] ++
        "dbname=d".data) =
      "host=h ".data ++ "password=***".data ++ [' '] ++ "dbname=d".data :=
  (c7_password_mask_amended "host=h ".data "pw".data "dbname=d".data
    (by decide) (by decide)).1

/-- Claim C8 counterexample: `get_schema` and `get_relationships` interpolate
the supplied table name directly into the SQL text and bind nothing, contrary
to the claim that every introspection operation passes the name as a bound
parameter. -/
theorem c8_introspection_cex :
    (get_schema_stmt (some "users")).binds = [] ∧
    strContains (get_schema_stmt (some "users")).text "users" = true ∧
    (get_relationships_stmt (some "users")).binds = [] ∧
    strContains (get_relationships_stmt (some "users")).text "users" = true := by
  refine ⟨rfl, ?_, rfl, ?_⟩
  · apply strContains_of_split _ _ schemaFilteredPre.data schemaFilteredPost.data
    simp [get_schema_stmt, List.append_assoc]
  · apply strContains_of_split _ _ relationshipsFilteredPre.data
      relationshipsFilteredPost.data
    simp [get_relationships_stmt, List.append_assoc]

/-- Claim C8 amended: `describe_table`, `table_exists` and `column_exists`
pass the table/column name as a bound parameter over a fixed SQL text, but
`get_schema` and `get_relationships` interpolate the table name into the SQL
text and bind nothing. -/
theorem c8_introspection_amended (t c : String) :
    describe_table_columns_stmt t = ⟨describeColumnsText, [t]⟩ ∧
    describe_table_indexes_stmt t = ⟨describeIndexesText, [t]⟩ ∧
    table_exists_stmt t = ⟨tableExistsText, [t]⟩ ∧
    column_exists_stmt t c = ⟨columnExistsText, [t, c]⟩ ∧
    (∀ t2 : String, (describe_table_columns_stmt t2).text =
      (describe_table_columns_stmt t).text) ∧
    (∀ t2 : String, (table_exists_stmt t2).text = (table_exists_stmt t).text) ∧
    (∀ (t2 c2 : String), (column_exists_stmt t2 c2).text = (column_exists_stmt t c).text) ∧
    get_schema_stmt (some t) = ⟨schemaFilteredPre ++ t ++ schemaFilteredPost, []⟩ ∧
    get_relationships_stmt (some t) =
      ⟨relationshipsFilteredPre ++ t ++ relationshipsFilteredPost, []⟩ ∧
    strContains (get_schema_stmt (some t)).text t = true ∧
    strContains (get_relationships_stmt (some t)).text t = true := by
  refine ⟨rfl, rfl, rfl, rfl, fun _ => rfl, fun _ => rfl, fun _ _ => rfl, rfl, rfl, ?_, ?_⟩
  · apply strContains_of_split _ _ schemaFilteredPre.data schemaFilteredPost.data
    simp [get_schema_stmt, List.append_assoc]
  · apply strContains_of_split _ _ relationshipsFilteredPre.data
      relationshipsFilteredPost.data
    simp [get_relationships_stmt, List.append_assoc]
